import Mathlib

/-!
# Verification of the ranking-run backend core

Shallow embedding, in Lean 4, of the algorithmic core of the `ranking-run`
running-activity backend (Python/FastAPI), together with theorems settling
the frozen specification claims.

Conventions used throughout:
* Python `int` values are modelled as `ℤ`, Python `float` values as `ℚ`
  (exact rational arithmetic standing in for IEEE doubles; every concrete
  constant appearing in the source is exactly representable).
* Python `None` is modelled with `Option`.
* `int(x)` (truncation toward zero) is `pyInt`; `round(x, 1)` is `round1`
  (round-half-to-even at exact rational precision, as CPython's `round`).
* Database identifiers (UUIDs) are modelled as `ℕ`, timestamps as `ℤ`
  (epoch seconds); neither is ever inspected arithmetically by the code
  under study.
* SQL queries are modelled as pure functions over explicit lists of rows.
-/

/-- Python `int(x)` applied to a float: truncation toward zero. -/
def pyInt (q : ℚ) : ℤ :=
  if 0 ≤ q then ⌊q⌋ else ⌈q⌉

/-- Round-half-to-even to the nearest integer, as CPython's `round`. -/
def roundHalfEven (q : ℚ) : ℤ :=
  let f := ⌊q⌋
  let r := q - (f : ℚ)
  if r < 1/2 then f
  else if 1/2 < r then f + 1
  else if f % 2 = 0 then f else f + 1

/-- Python `round(x, 1)`: one decimal digit, half-to-even. -/
def round1 (q : ℚ) : ℚ :=
  (roundHalfEven (q * 10) : ℚ) / 10

/-!
## Speed-anomaly detector
Embedding of `src/backend/app/services/speed_anomaly_service.py`.
The Python code renders each triggering reason as a formatted string; the
embedding keeps each reason as a structured value carrying exactly the data
interpolated into the corresponding format string (so "the reason mentions
the bracket" becomes "the reason carries that bracket name").
-/

namespace SpeedAnomaly

/-- One entry of the run's `splits` list, as read by `analyze_run`
(`split.get("pace_seconds_per_km", 0)` / `split.get("split_number", "?")`). -/
structure SplitInfo where
  split_number : ℤ
  pace_seconds_per_km : ℤ
deriving DecidableEq, Repr

/-- A triggering reason; constructor arguments are the values interpolated
into the Python format string of the corresponding `reasons.append`. -/
inductive FlagReason where
  | avgSpeed (actual limit : ℚ) (bracket : String)
  | maxSpeed (v : ℚ)
  | bestPace (p : ℤ)
  | splitPace (splitNumber p : ℤ)
deriving DecidableEq, Repr

/-- `AnomalyResult` dataclass. `flag_reason` keeps the (truncated-to-three)
list of reasons joined by `" / "` in the source. -/
structure AnomalyResult where
  is_flagged : Bool
  flag_reason : Option (List FlagReason)
  confidence : ℚ
deriving DecidableEq, Repr

/-- `_DISTANCE_SPEED_LIMITS`: `(min_distance_m, max_avg_speed_ms, description)`. -/
def DISTANCE_SPEED_LIMITS : List (ℤ × ℚ × String) :=
  [(0, 21/2, "단거리"),
   (1000, 15/2, "1km+"),
   (5000, 34/5, "5km+"),
   (10000, 63/10, "10km+"),
   (21097, 6, "하프마라톤+"),
   (42195, 29/5, "풀마라톤+")]

/-- `_MIN_SPLIT_PACE_SEC_PER_KM`. -/
def MIN_SPLIT_PACE_SEC_PER_KM : ℤ := 120

/-- `_MAX_INSTANTANEOUS_SPEED_MS`. -/
def MAX_INSTANTANEOUS_SPEED_MS : ℚ := 25/2

/-- The `for ... in reversed(_DISTANCE_SPEED_LIMITS): if distance >= min_dist:
break` loop: first entry of the reversed table whose `min_distance` is at most
the run distance; `(12.5, "")` is the loop's fallback initialisation. -/
def findBracket (distance_meters : ℤ) : ℚ × String :=
  match DISTANCE_SPEED_LIMITS.reverse.find? (fun e => decide (e.1 ≤ distance_meters)) with
  | some e => (e.2.1, e.2.2)
  | none => (MAX_INSTANTANEOUS_SPEED_MS, "")

/-- The `actual_avg` variable of `analyze_run`: `distance / duration`,
raised to a provided `avg_speed_ms` when that is truthy and positive
(`if avg_speed_ms and avg_speed_ms > 0: actual_avg = max(actual, avg)`). -/
def effectiveAvgSpeed (distance_meters duration_seconds : ℤ)
    (avg_speed_ms : Option ℚ) : ℚ :=
  let actual0 : ℚ := (distance_meters : ℚ) / (duration_seconds : ℚ)
  match avg_speed_ms with
  | some v => if v ≠ 0 ∧ 0 < v then max actual0 v else actual0
  | none => actual0

/-- Check 1 of `analyze_run`: average speed against the distance bracket. -/
def avgSpeedReasons (distance_meters duration_seconds : ℤ)
    (avg_speed_ms : Option ℚ) : List FlagReason :=
  let actual_avg := effectiveAvgSpeed distance_meters duration_seconds avg_speed_ms
  let bracket := findBracket distance_meters
  if bracket.1 < actual_avg then [.avgSpeed actual_avg bracket.1 bracket.2]
  else []

/-- Check 2 of `analyze_run`: `if max_speed_ms and max_speed_ms > 12.5`. -/
def maxSpeedReasons (max_speed_ms : Option ℚ) : List FlagReason :=
  match max_speed_ms with
  | some v => if v ≠ 0 ∧ MAX_INSTANTANEOUS_SPEED_MS < v then [.maxSpeed v] else []
  | none => []

/-- Check 3 of `analyze_run`:
`if best_pace_seconds_per_km and best_pace_seconds_per_km < 120`. -/
def bestPaceReasons (best_pace_seconds_per_km : Option ℤ) : List FlagReason :=
  match best_pace_seconds_per_km with
  | some p => if p ≠ 0 ∧ p < MIN_SPLIT_PACE_SEC_PER_KM then [.bestPace p] else []
  | none => []

/-- Check 4 of `analyze_run`: the first split with `0 < pace < 120`
(the loop `break`s after one). `if splits:` treats `None` and the empty
list alike. -/
def splitReasons (splits : Option (List SplitInfo)) : List FlagReason :=
  match (splits.getD []).find? (fun sp =>
      decide (0 < sp.pace_seconds_per_km ∧
              sp.pace_seconds_per_km < MIN_SPLIT_PACE_SEC_PER_KM)) with
  | some sp => [.splitPace sp.split_number sp.pace_seconds_per_km]
  | none => []

/-- The full `reasons` list accumulated by `analyze_run`. -/
def runReasons (distance_meters duration_seconds : ℤ)
    (avg_speed_ms max_speed_ms : Option ℚ)
    (splits : Option (List SplitInfo))
    (best_pace_seconds_per_km : Option ℤ) : List FlagReason :=
  avgSpeedReasons distance_meters duration_seconds avg_speed_ms ++
  maxSpeedReasons max_speed_ms ++
  bestPaceReasons best_pace_seconds_per_km ++
  splitReasons splits

/-- `analyze_run` from `speed_anomaly_service.py`. Python truthiness tests
(`if avg_speed_ms and avg_speed_ms > 0`, `if max_speed_ms and ...`,
`if best_pace_seconds_per_km and ...`, `if splits:`, `if pace > 0 and ...`)
are translated literally (`x` is truthy iff it is not `None` and nonzero). -/
def analyze_run
    (distance_meters duration_seconds : ℤ)
    (avg_speed_ms max_speed_ms : Option ℚ)
    (splits : Option (List SplitInfo))
    (best_pace_seconds_per_km : Option ℤ) : AnomalyResult :=
  if duration_seconds ≤ 0 ∨ distance_meters ≤ 0 then
    ⟨false, none, 0⟩
  else
    let reasons := runReasons distance_meters duration_seconds avg_speed_ms
      max_speed_ms splits best_pace_seconds_per_km
    if reasons = [] then ⟨false, none, 0⟩
    else ⟨true, some (reasons.take 3), min 1 ((reasons.length : ℚ) * (2/5))⟩

/-- Spec-side reading of the bracket rule: the strictest (lowest) speed limit
among the table entries whose minimum distance is at most the run distance;
`12.5` (the source's fallback) when none applies. -/
def strictestLimit (distance_meters : ℤ) : ℚ :=
  ((DISTANCE_SPEED_LIMITS.filter (fun e => decide (e.1 ≤ distance_meters))).map
    (fun e => e.2.1)).foldr min MAX_INSTANTANEOUS_SPEED_MS

end SpeedAnomaly

/-!
## Elevation accumulator
Embedding of `_calculate_elevation` from
`src/backend/app/services/file_parser.py`. The function only reads each
point's `alt` attribute, so the input is modelled as the list of altitudes
(`Option ℚ`, `none` for a missing altitude).
-/

namespace Elevation

/-- One iteration of the `for pt in points` loop: state is
`(gain, loss, prev_alt)`. -/
def elevStep (st : ℚ × ℚ × Option ℚ) (alt : Option ℚ) : ℚ × ℚ × Option ℚ :=
  match alt with
  | none => st
  | some a =>
    if a = 0 then st
    else
      match st.2.2 with
      | none => (st.1, st.2.1, some a)
      | some prev =>
        let diff := a - prev
        if 2 ≤ |diff| then
          if 0 < diff then (st.1 + diff, st.2.1, some a)
          else (st.1, st.2.1 + |diff|, some a)
        else st

/-- `_calculate_elevation`: single pass with hysteresis, returning
`(int(gain), int(loss))`. -/
def calculate_elevation (alts : List (Option ℚ)) : ℤ × ℤ :=
  let st := alts.foldl elevStep (0, 0, none)
  (pyInt st.1, pyInt st.2.1)

end Elevation

/-!
## Route matcher
Embedding of `src/backend/app/services/course_matcher.py`.

`haversine_distance` / `point_to_segment_distance` / `calculate_curvature`
are transcendental real-valued geometry (`sin`, `cos`, `atan2`, `sqrt`);
the matcher composes them purely through two interfaces: the
point-to-segment distance `d p a b` and the three-point curvature
`curv p1 p2 p3`. The embedding therefore takes these two functions as
parameters and translates, exactly, everything the source builds on top of
them (`classify_segments`, `find_nearest_segment`, `calculate_route_match`).
-/

namespace Matcher

/-- `Point2D` dataclass. -/
structure Point2D where
  lat : ℚ
  lng : ℚ
deriving DecidableEq, Repr

/-- `STRAIGHT_THRESHOLD`. -/
def STRAIGHT_THRESHOLD : ℚ := 50
/-- `CURVE_THRESHOLD`. -/
def CURVE_THRESHOLD : ℚ := 60
/-- `COMPLETION_MIN_MATCH`. -/
def COMPLETION_MIN_MATCH : ℚ := 4/5
/-- `CURVATURE_THRESHOLD`. -/
def CURVATURE_THRESHOLD : ℚ := 1/1000

/-- `RouteMatchResult` dataclass. -/
structure RouteMatchResult where
  is_completed : Bool
  route_match_percent : ℚ
  max_deviation_meters : ℚ
  deviation_points : ℕ
  total_points : ℕ
  curve_section_count : ℕ
deriving DecidableEq, Repr

/-- Point-to-segment distance and three-point curvature, the two geometric
primitives the matcher is parameterised over. -/
structure Geometry where
  segDist : Point2D → Point2D → Point2D → ℚ
  curvature : Point2D → Point2D → Point2D → ℚ

/-- Origin default used only to totalise list indexing (never reached on the
index ranges the source iterates over). -/
def origin : Point2D := ⟨0, 0⟩

/-- The curvature at interior vertex `i` of the course
(`calculate_curvature(course[i-1], course[i], course[i+1])`). -/
def curvatureAt (G : Geometry) (course : List Point2D) (i : ℕ) : ℚ :=
  G.curvature (course.getD (i - 1) origin) (course.getD i origin)
    (course.getD (i + 1) origin)

/-- `classify_segments`: the imperative loop marks segments `i-1` and `i`
for every interior vertex `i ∈ [1, n-2]` whose curvature exceeds the
threshold; segment `j` therefore ends up `True` iff one of its two endpoint
vertices is such a vertex. -/
def classify_segments (G : Geometry) (course : List Point2D)
    (curvature_threshold : ℚ := CURVATURE_THRESHOLD) : List Bool :=
  let n := course.length
  if n < 3 then List.replicate (n - 1) false
  else
    (List.range (n - 1)).map (fun j =>
      decide ((1 ≤ j ∧ j ≤ n - 2 ∧ curvature_threshold < curvatureAt G course j) ∨
              (j + 1 ≤ n - 2 ∧ curvature_threshold < curvatureAt G course (j + 1))))

/-- Distance from runner point `p` to course segment `i`
(`point_to_segment_distance(p, course[i], course[i+1])`). -/
def segDistAt (G : Geometry) (p : Point2D) (course : List Point2D) (i : ℕ) : ℚ :=
  G.segDist p (course.getD i origin) (course.getD (i + 1) origin)

/-- The scan of the `find_nearest_segment` loop: keep the pair with the
smaller distance, strict `<` so the first minimiser wins. -/
def scanMin : List (ℕ × ℚ) → ℕ × ℚ → ℕ × ℚ
  | [], best => best
  | e :: rest, best => scanMin rest (if e.2 < best.2 then e else best)

/-- The indexed list of per-segment distances for one runner point. -/
def segPairs (G : Geometry) (p : Point2D) (course : List Point2D) : List (ℕ × ℚ) :=
  (List.range (course.length - 1)).map (fun i => (i, segDistAt G p course i))

/-- `find_nearest_segment`: index of the first segment of minimal distance
(the loop starts from `min_dist = inf`, so the first pair always replaces
the initial state). -/
def find_nearest_segment (G : Geometry) (p : Point2D) (course : List Point2D) : ℕ :=
  match segPairs G p course with
  | [] => 0
  | e :: rest => (scanMin rest e).1

/-- The distance the matcher recomputes at the nearest segment's index. -/
def nearestDist (G : Geometry) (p : Point2D) (course : List Point2D) : ℚ :=
  segDistAt G p course (find_nearest_segment G p course)

/-- The threshold applied to one runner point
(`curve_threshold if is_curved[seg_idx] else straight_threshold`). -/
def pointThreshold (G : Geometry) (course : List Point2D)
    (is_curved : List Bool) (straight_threshold curve_threshold : ℚ)
    (p : Point2D) : ℚ :=
  if is_curved.getD (find_nearest_segment G p course) false
  then curve_threshold else straight_threshold

/-- Whether one runner point counts as matched (`dist <= threshold`). -/
def isMatchedPoint (G : Geometry) (course : List Point2D)
    (is_curved : List Bool) (straight_threshold curve_threshold : ℚ)
    (p : Point2D) : Bool :=
  decide (nearestDist G p course ≤
    pointThreshold G course is_curved straight_threshold curve_threshold p)

/-- `calculate_route_match`. -/
def calculate_route_match (G : Geometry)
    (runner_points course_points : List Point2D)
    (straight_threshold : ℚ := STRAIGHT_THRESHOLD)
    (curve_threshold : ℚ := CURVE_THRESHOLD) : RouteMatchResult :=
  if runner_points = [] ∨ course_points.length < 2 then
    ⟨false, 0, 0, 0, runner_points.length, 0⟩
  else
    let is_curved := classify_segments G course_points
    let curve_section_count := is_curved.count true
    let matched_count := runner_points.countP
      (isMatchedPoint G course_points is_curved straight_threshold curve_threshold)
    let deviation_count := runner_points.length - matched_count
    let max_deviation := runner_points.foldl
      (fun m p => max m (nearestDist G p course_points)) 0
    let total := runner_points.length
    let matchRatio : ℚ := (matched_count : ℚ) / (total : ℚ)
    ⟨decide (COMPLETION_MIN_MATCH ≤ matchRatio),
     round1 (matchRatio * 100),
     round1 max_deviation,
     deviation_count,
     total,
     curve_section_count⟩

end Matcher

/-!
## Run service
Embedding of `src/backend/app/services/run_service.py` restricted to the
state one session owns: its status, its persisted chunks, and the run
records created for it. The session is taken to exist and to belong to the
acting user (ownership failures raise `NOT_FOUND` before any of the logic
modelled here runs). Chunk payloads the service never inspects
(`chunk_summary`, split entries, pause entries) are type parameters
`γ`, `σ`, `π`; GPS points are modelled by the two fields the service reads
(`p["lng"]`, `p["lat"]`).
-/

namespace RunSvc

/-- Typed error codes raised by the service (`AppError` subclasses). -/
inductive ApiError where
  | notFound
  | duplicateChunk
  | invalidSessionState
  | alreadyCompleted
  | noChunks
deriving DecidableEq, Repr

/-- A GPS point as consumed by `recover_session` (`p["lng"]`, `p["lat"]`). -/
structure GPoint where
  lng : ℚ
  lat : ℚ
deriving DecidableEq, Repr

/-- The `cumulative` snapshot of a chunk, with the keys `recover_session`
reads (`total_distance_meters`, `total_duration_seconds`,
`avg_pace_seconds_per_km`). -/
structure Cumulative where
  total_distance_meters : ℚ
  total_duration_seconds : ℚ
  avg_pace_seconds_per_km : Option ℚ
deriving DecidableEq, Repr

/-- A persisted `RunChunk` row. -/
structure Chunk (σ π γ : Type) where
  sequence : ℤ
  chunk_type : String
  raw_gps_points : List GPoint
  filtered_points : Option (List GPoint)
  chunk_summary : γ
  cumulative : Cumulative
  completed_splits : List σ
  pause_intervals : List π

/-- A created `RunRecord` row, restricted to the fields `recover_session`
sets. -/
structure RecoveredRecord (σ π : Type) where
  session_id : ℕ
  distance_meters : ℤ
  duration_seconds : ℤ
  avg_pace_seconds_per_km : Option ℤ
  route_geometry : Option (List GPoint)
  splits : Option (List σ)
  pause_intervals : Option (List π)
  started_at : ℤ
  finished_at : ℤ

/-- The session-local database state. -/
structure SessionState (σ π γ : Type) where
  id : ℕ
  status : String
  course_id : Option ℕ
  started_at : ℤ
  chunks : List (Chunk σ π γ)
  records : List (RecoveredRecord σ π)

/-- One item of a batch upload request, with the `chunk_data.get` defaults
already applied by the HTTP schema layer. -/
structure ChunkData (σ π γ : Type) where
  sequence : ℤ
  chunk_type : String
  raw_gps_points : List GPoint
  filtered_points : Option (List GPoint)
  chunk_summary : γ
  cumulative : Cumulative
  completed_splits : List σ
  pause_intervals : List π

variable {σ π γ : Type}

/-- The `RunChunk(...)` row built by `batch_upload_chunks`. -/
def mkChunk (cd : ChunkData σ π γ) : Chunk σ π γ :=
  ⟨cd.sequence, cd.chunk_type, cd.raw_gps_points, cd.filtered_points,
   cd.chunk_summary, cd.cumulative, cd.completed_splits, cd.pause_intervals⟩

/-- `upload_chunk`: requires status `active` (`_get_active_session`), then
fails with `DUPLICATE_CHUNK` when a row with the same `(session_id,
sequence)` exists, otherwise inserts the chunk. -/
def upload_chunk (s : SessionState σ π γ) (cd : ChunkData σ π γ) :
    Except ApiError (SessionState σ π γ) :=
  if s.status ≠ "active" then .error .invalidSessionState
  else if s.chunks.any (fun c => c.sequence = cd.sequence) then
    .error .duplicateChunk
  else .ok { s with chunks := s.chunks ++ [mkChunk cd] }

/-- The `for chunk_data in chunks_data` loop of `batch_upload_chunks`:
an existing `(session_id, sequence)` is reported as received without a
second insert, otherwise the chunk is inserted and reported as received.
(The `failed` list only collects database exceptions, which the pure model
does not have; it is always empty here.) -/
def processBatch (store : List (Chunk σ π γ)) :
    List (ChunkData σ π γ) → List (Chunk σ π γ) × List ℤ
  | [] => (store, [])
  | cd :: rest =>
    if store.any (fun c => c.sequence = cd.sequence) then
      let r := processBatch store rest
      (r.1, cd.sequence :: r.2)
    else
      let r := processBatch (store ++ [mkChunk cd]) rest
      (r.1, cd.sequence :: r.2)

/-- `batch_upload_chunks`: allowed while the session is in
`{active, completed, recovered}` (`allow_completed=True`); returns the new
state, the `received` sequences and the (always empty) `failed` list. -/
def batch_upload_chunks (s : SessionState σ π γ)
    (chunks_data : List (ChunkData σ π γ)) :
    Except ApiError (SessionState σ π γ × List ℤ × List ℤ) :=
  if s.status ≠ "active" ∧ s.status ≠ "completed" ∧ s.status ≠ "recovered" then
    .error .invalidSessionState
  else
    let r := processBatch s.chunks chunks_data
    .ok ({ s with chunks := r.1 }, r.2, [])

/-- Ordering of chunks by `sequence` (the `ORDER BY run_chunks.sequence` of
the recovery query). -/
def chunkLE (a b : Chunk σ π γ) : Prop := a.sequence ≤ b.sequence

instance : DecidableRel (@chunkLE σ π γ) :=
  fun a b => inferInstanceAs (Decidable (a.sequence ≤ b.sequence))

instance : IsTotal (Chunk σ π γ) chunkLE := ⟨fun a b => Int.le_total a.sequence b.sequence⟩

instance : IsTrans (Chunk σ π γ) chunkLE := ⟨fun _ _ _ => Int.le_trans⟩

/-- The points contributed by one chunk:
`chunk.filtered_points or chunk.raw_gps_points` (Python `or`: an empty
filtered list also falls back to the raw points). -/
def chunkPoints (c : Chunk σ π γ) : List GPoint :=
  match c.filtered_points with
  | some l => if l = [] then c.raw_gps_points else l
  | none => c.raw_gps_points

/-- `int(cumulative.get("avg_pace_seconds_per_km", 0)) if
cumulative.get("avg_pace_seconds_per_km") else None` (Python truthiness:
an absent or zero pace becomes `None`). -/
def recoverAvgPace (c : Cumulative) : Option ℤ :=
  match c.avg_pace_seconds_per_km with
  | some v => if v = 0 then none else some (pyInt v)
  | none => none

/-- `recover_session`. The `uploaded_chunk_sequences` request field is
accepted and ignored, exactly as in the source. -/
def recover_session (s : SessionState σ π γ) (finished_at : ℤ)
    (total_chunks : ℕ) (uploaded_chunk_sequences : List ℤ) :
    Except ApiError (SessionState σ π γ × RecoveredRecord σ π × List ℤ) :=
  if s.status = "completed" then .error .alreadyCompleted
  else
    match List.insertionSort chunkLE s.chunks with
    | [] => .error .noChunks
    | c :: cs =>
      let chunksSorted := c :: cs
      let last_chunk := chunksSorted.getLast (List.cons_ne_nil c cs)
      let cumulative := last_chunk.cumulative
      let total_distance := pyInt cumulative.total_distance_meters
      let total_duration := pyInt cumulative.total_duration_seconds
      let avg_pace := recoverAvgPace cumulative
      let all_points := chunksSorted.flatMap chunkPoints
      let all_splits := chunksSorted.flatMap (fun ch => ch.completed_splits)
      let all_pauses := chunksSorted.flatMap (fun ch => ch.pause_intervals)
      let route := if 2 ≤ all_points.length then some all_points else none
      let record : RecoveredRecord σ π :=
        ⟨s.id, total_distance, total_duration, avg_pace, route,
         if all_splits.isEmpty then none else some all_splits,
         if all_pauses.isEmpty then none else some all_pauses,
         s.started_at, finished_at⟩
      let server_missing := ((List.range total_chunks).map (Int.ofNat)).filter
        (fun q => !s.chunks.any (fun ch => ch.sequence = q))
      .ok ({ s with status := "recovered", records := s.records ++ [record] },
           record, server_missing)

end RunSvc

/-!
## Ranking service and ranking task
Embedding of `RankingService.upsert_ranking`
(`src/backend/app/services/ranking_service.py`) and of the background task
`recalculate_course_ranking` (`src/backend/app/tasks/ranking.py`), both
restricted to the single `(course_id, user_id)` ranking row they touch
(the row's existence is the `SELECT ... WHERE course_id = ... AND
user_id = ...` result).
-/

namespace RankingSvc

/-- A `rankings` row. `run_count` carries the model/server default `1` on
insert. -/
structure Ranking where
  course_id : ℕ
  user_id : ℕ
  best_duration_seconds : ℤ
  best_pace_seconds_per_km : ℤ
  run_count : ℤ
  rank : Option ℤ
  achieved_at : ℤ
deriving DecidableEq, Repr

/-- `RankingService.upsert_ranking`: update the existing row (unconditional
`run_count += 1`; overwrite the bests only on a strictly smaller duration)
or insert a fresh row. -/
def upsert_ranking (existing : Option Ranking) (course_id user_id : ℕ)
    (duration_seconds pace_seconds_per_km : ℤ) (achieved_at : ℤ) : Ranking :=
  match existing with
  | some ex =>
    let ex := { ex with run_count := ex.run_count + 1 }
    if duration_seconds < ex.best_duration_seconds then
      { ex with
        best_duration_seconds := duration_seconds
        best_pace_seconds_per_km := pace_seconds_per_km
        achieved_at := achieved_at }
    else ex
  | none =>
    ⟨course_id, user_id, duration_seconds, pace_seconds_per_km, 1, none,
     achieved_at⟩

/-- A `run_records` row as read by the background tasks. `is_flagged` and
`flag_reason` exist in the database schema (migration
`0015_add_run_speed_anomaly_flags`); the ORM `RunRecord` model does not map
them, so no service-layer code can observe them — the row carries the field,
the task ignores it. -/
structure RunRecordRow where
  course_id : ℕ
  user_id : ℕ
  distance_meters : ℤ
  duration_seconds : ℤ
  avg_pace_seconds_per_km : Option ℤ
  course_completed : Option Bool
  is_flagged : Bool
  started_hour : ℕ
  finished_at : ℤ
deriving DecidableEq, Repr

/-- The pace fallback chain of `recalculate_course_ranking`. -/
def taskPace (r : RunRecordRow) : ℤ :=
  match r.avg_pace_seconds_per_km with
  | some p => p
  | none =>
    if 0 < r.distance_meters then
      pyInt ((r.duration_seconds : ℚ) / ((r.distance_meters : ℚ) / 1000))
    else 0

/-- `recalculate_course_ranking` (the ranking background task), as the
transformation it applies to the `(course_id, user_id)` ranking row:
return unchanged when the record is missing or `not
run_record.course_completed` (Python falsiness: `None` or `False`);
otherwise perform the upsert. The task contains no test of `is_flagged`. -/
def recalculate_course_ranking (course_id user_id : ℕ)
    (run_record : Option RunRecordRow) (existing : Option Ranking) :
    Option Ranking :=
  match run_record with
  | none => existing
  | some r =>
    if r.course_completed.getD false = false then existing
    else
      some (upsert_ranking existing course_id user_id r.duration_seconds
        (taskPace r) r.finished_at)

end RankingSvc

/-!
## Course-stats recomputation
Embedding of `StatsService.update_course_stats`
(`src/backend/app/services/stats_service.py`): a pure function of the
`run_records` table (a list of rows), the course id, and the course's
reference distance. SQL aggregates are translated clause by clause; note
that both its aggregation queries filter on `course_id` (and, for the
completed aggregate, `course_completed == True`) only — neither mentions
`is_flagged`.
-/

namespace StatsSvc

open RankingSvc

/-- A `course_stats` row as written by `update_course_stats`. `runs_by_hour`
is the group-by-hour dictionary, modelled as the (hour, count) pairs with a
positive count, in hour order. -/
structure CourseStatsRow where
  total_runs : ℕ
  unique_runners : ℕ
  avg_duration_seconds : Option ℤ
  avg_pace_seconds_per_km : Option ℤ
  best_duration_seconds : Option ℤ
  best_pace_seconds_per_km : Option ℤ
  completion_rate : ℚ
  runs_by_hour : List (ℕ × ℕ)
deriving DecidableEq, Repr

/-- The rows of the completed-runs aggregate:
`WHERE course_id = :cid AND course_completed = TRUE` (SQL three-valued
logic: a NULL `course_completed` does not match). -/
def completedRuns (records : List RunRecordRow) (course_id : ℕ) :
    List RunRecordRow :=
  records.filter (fun r =>
    decide (r.course_id = course_id ∧ r.course_completed = some true))

/-- `update_course_stats`. -/
def update_course_stats (records : List RunRecordRow) (course_id : ℕ)
    (course_distance : Option ℤ) : CourseStatsRow :=
  let completed := completedRuns records course_id
  let total_runs := completed.length
  let unique_runners := (completed.map (fun r => r.user_id)).dedup.length
  let avg_duration : Option ℤ :=
    if completed.isEmpty then none
    else
      let a : ℚ := ((completed.map (fun r => r.duration_seconds)).sum : ℚ) /
        (completed.length : ℚ)
      if a = 0 then none else some (pyInt a)
  let best_duration : Option ℤ := (completed.map (fun r => r.duration_seconds)).min?
  let paceOf (dur : ℤ) (cd : ℤ) : ℤ := pyInt ((dur : ℚ) / ((cd : ℚ) / 1000))
  let avg_pace : Option ℤ :=
    match course_distance, avg_duration with
    | some cd, some ad => if 0 < cd ∧ cd ≠ 0 ∧ ad ≠ 0 then some (paceOf ad cd) else none
    | _, _ => none
  let best_pace : Option ℤ :=
    match course_distance, best_duration with
    | some cd, some bd => if 0 < cd ∧ cd ≠ 0 ∧ bd ≠ 0 then some (paceOf bd cd) else none
    | _, _ => none
  let total_attempts := (records.filter (fun r => decide (r.course_id = course_id))).length
  let completion_rate : ℚ :=
    if 0 < total_attempts then (total_runs : ℚ) / (total_attempts : ℚ) else 0
  let runs_by_hour : List (ℕ × ℕ) :=
    (List.range 24).filterMap (fun h =>
      let cnt := (records.filter (fun r =>
        decide (r.course_id = course_id ∧ r.started_hour = h))).length
      if 0 < cnt then some (h, cnt) else none)
  ⟨total_runs, unique_runners, avg_duration, avg_pace, best_duration,
   best_pace, completion_rate, runs_by_hour⟩

/-- The count claim (T4) asserts — written from the claim's words, for
comparison against `update_course_stats`: completed AND non-flagged rows of
the course. -/
def claimedTotalRuns (records : List RunRecordRow) (course_id : ℕ) : ℕ :=
  (records.filter (fun r =>
    decide (r.course_id = course_id ∧ r.course_completed = some true ∧
            r.is_flagged = false))).length

end StatsSvc

/-!
## Concrete instances used by the claim checks
-/

/-- A completed but speed-flagged run record: 10 km in 25 minutes
(`avg_speed 6.67 m/s`, beyond the 10km+ limit), matched to course 1. -/
def flaggedRecord : RankingSvc.RunRecordRow :=
  ⟨1, 7, 10000, 1500, none, some true, true, 9, 1700000000⟩

/-- An example geometry for exercising the route matcher: one straight
course segment; a point at `(lat 1, lng 0)` is 100 m away from it, every
other point lies on it. -/
def exGeom : Matcher.Geometry :=
  ⟨fun p _ _ => if p = ⟨1, 0⟩ then 100 else 0, fun _ _ _ => 0⟩

/-- Runner trace for the matcher example: two points on the course, one far
off it. -/
def exRunner : List Matcher.Point2D := [⟨0, 0⟩, ⟨0, 1/2⟩, ⟨1, 0⟩]

/-- Course polyline for the matcher example: a single segment. -/
def exCourse : List Matcher.Point2D := [⟨0, 0⟩, ⟨0, 1⟩]

/-- A session-local state used to exercise chunk upload and recovery:
status `active`, chunks persisted out of order with sequences 2, 0, 1. -/
def exChunk (seq : ℤ) (dist dur : ℚ) (pts : List RunSvc.GPoint) :
    RunSvc.Chunk ℕ ℕ ℕ :=
  ⟨seq, "intermediate", pts, none, 0, ⟨dist, dur, some (dist / 4)⟩,
   [seq.toNat], [seq.toNat + 10]⟩

/-- Example active session with three chunks (sequences 2, 0, 1). -/
def exSession : RunSvc.SessionState ℕ ℕ ℕ :=
  ⟨5, "active", some 1, 1700000000,
   [exChunk 2 3000 900 [⟨3, 3⟩], exChunk 0 1000 300 [⟨1, 1⟩],
    exChunk 1 2000 600 [⟨2, 2⟩]],
   []⟩

/-- The same session after a crash recovery already ran once. -/
def exRecoveredSession : RunSvc.SessionState ℕ ℕ ℕ :=
  { exSession with status := "recovered" }

/-- A batch request carrying the same sequence twice. -/
def exBatch : List (RunSvc.ChunkData ℕ ℕ ℕ) :=
  [⟨3, "intermediate", [⟨4, 4⟩], none, 0, ⟨4000, 1200, none⟩, [3], []⟩,
   ⟨3, "intermediate", [⟨4, 4⟩], none, 0, ⟨4000, 1200, none⟩, [3], []⟩]

/-- A single-chunk upload request that collides with the persisted
sequence 2 of `exSession`. -/
def exDupChunkData : RunSvc.ChunkData ℕ ℕ ℕ :=
  ⟨2, "final", [⟨9, 9⟩], none, 0, ⟨5000, 1500, none⟩, [9], []⟩

/-!
## Claim theorems
-/

/-- Claim C10: For every input with `duration_seconds ≤ 0` or
`distance_meters ≤ 0`, the speed-anomaly detector returns
`is_flagged = false`, confidence `0` and no flag reason, regardless of the
remaining inputs. -/
theorem c10_nonpositive_run_never_flagged
    (d t : ℤ) (avg maxs : Option ℚ)
    (splits : Option (List SpeedAnomaly.SplitInfo)) (bp : Option ℤ)
    (h : t ≤ 0 ∨ d ≤ 0) :
    SpeedAnomaly.analyze_run d t avg maxs splits bp =
      ⟨false, none, 0⟩ := by
  unfold SpeedAnomaly.analyze_run
  rw [if_pos h]

/-- Witness for `c10_nonpositive_run_never_flagged` at a run of 5 m in 0 s
with absurdly fast auxiliary inputs. -/
theorem c10_nonpositive_run_never_flagged_witness :
    ((0 : ℤ) ≤ 0 ∨ (5 : ℤ) ≤ 0) ∧
    SpeedAnomaly.analyze_run 5 0 (some 100) (some 100) (some [⟨1, 10⟩])
      (some 10) = ⟨false, none, 0⟩ :=
  ⟨Or.inl le_rfl,
   c10_nonpositive_run_never_flagged 5 0 (some 100) (some 100)
     (some [⟨1, 10⟩]) (some 10) (Or.inl le_rfl)⟩

/-- Claim C8: On an existing `Ranking` row, `upsert_ranking` increments
`run_count` by exactly 1 regardless of the new duration, overwrites
`best_duration_seconds`, `best_pace_seconds_per_km` and `achieved_at`
exactly when the new duration is strictly smaller than the stored best,
leaves them untouched otherwise, and never increases
`best_duration_seconds`. -/
theorem c8_upsert_personal_best_semantics
    (ex : RankingSvc.Ranking) (cid uid : ℕ) (dur pace achieved : ℤ) :
    (RankingSvc.upsert_ranking (some ex) cid uid dur pace achieved).run_count
        = ex.run_count + 1 ∧
    (dur < ex.best_duration_seconds →
      RankingSvc.upsert_ranking (some ex) cid uid dur pace achieved =
        { ex with
          run_count := ex.run_count + 1
          best_duration_seconds := dur
          best_pace_seconds_per_km := pace
          achieved_at := achieved }) ∧
    (¬ dur < ex.best_duration_seconds →
      RankingSvc.upsert_ranking (some ex) cid uid dur pace achieved =
        { ex with run_count := ex.run_count + 1 }) ∧
    (RankingSvc.upsert_ranking (some ex) cid uid dur pace
        achieved).best_duration_seconds ≤ ex.best_duration_seconds := by
  unfold RankingSvc.upsert_ranking
  by_cases h : dur < ex.best_duration_seconds <;>
    simp [h] <;> omega

/-- Witness for `c8_upsert_personal_best_semantics`: a 900 s run against a
stored best of 1000 s overwrites the best; the same upsert shows the
`run_count` increment. -/
theorem c8_upsert_personal_best_semantics_witness :
    (RankingSvc.upsert_ranking (some ⟨1, 7, 1000, 100, 3, some 2, 50⟩) 1 7 900
        90 60).run_count = 3 + 1 ∧
    ((900 : ℤ) < 1000 ∧
      RankingSvc.upsert_ranking (some ⟨1, 7, 1000, 100, 3, some 2, 50⟩) 1 7
        900 90 60 = ⟨1, 7, 900, 90, 4, some 2, 60⟩) := by
  have h := c8_upsert_personal_best_semantics ⟨1, 7, 1000, 100, 3, some 2, 50⟩
    1 7 900 90 60
  exact ⟨h.1, by decide, h.2.1 (by decide)⟩


/-- Claim C1: The claim states that the post-run ranking task performs no
`Ranking` upsert for a flagged run. The task `recalculate_course_ranking`
tests only `course_completed` — it cannot even observe `is_flagged`, which
the ORM `RunRecord` model does not map although migration 0015 added the
column "for efficient filtering of flagged records in rankings". Evaluated
on a flagged, course-completed record with no prior ranking row, the task
creates a `Ranking` row (duration 1500 s, derived pace 150 s/km). -/
theorem c1_ranking_task_upserts_flagged_run :
    flaggedRecord.is_flagged = true ∧
    flaggedRecord.course_completed = some true ∧
    RankingSvc.recalculate_course_ranking 1 7 (some flaggedRecord) none =
      some ⟨1, 7, 1500, 150, 1, none, 1700000000⟩ := by
  refine ⟨rfl, rfl, ?_⟩
  simp [RankingSvc.recalculate_course_ranking, flaggedRecord,
    RankingSvc.taskPace, RankingSvc.upsert_ranking, pyInt]
  norm_num

/-- Claim C2 counterexample: On a course whose only attempt is a completed
but flagged run, `update_course_stats` writes `total_runs = 1` and
`completion_rate = 1`, while the claim's count of completed, non-flagged
records is `0` (so the claimed completion rate would also be `0`). -/
theorem c2_counterexample_flagged_run_counted :
    (StatsSvc.update_course_stats [flaggedRecord] 1 (some 5000)).total_runs
        = 1 ∧
    StatsSvc.claimedTotalRuns [flaggedRecord] 1 = 0 ∧
    (StatsSvc.update_course_stats [flaggedRecord] 1
        (some 5000)).completion_rate = 1 := by
  refine ⟨?_, ?_, ?_⟩ <;>
    simp [StatsSvc.update_course_stats, StatsSvc.completedRuns,
      StatsSvc.claimedTotalRuns, flaggedRecord]

/-- Claim C2 amended: After the course-stats recomputation,
`CourseStats.total_runs` equals the number of run records of the course
with `course_completed == true` — regardless of `is_flagged` — and
`completion_rate` equals that count divided by the number of all run
records of the course (`0` when there are no attempts). -/
theorem c2_course_stats_counts
    (records : List RankingSvc.RunRecordRow) (cid : ℕ)
    (course_distance : Option ℤ) :
    (StatsSvc.update_course_stats records cid course_distance).total_runs =
      (records.countP (fun r =>
        decide (r.course_id = cid ∧ r.course_completed = some true))) ∧
    (StatsSvc.update_course_stats records cid course_distance).completion_rate =
      (if records.countP (fun r => decide (r.course_id = cid)) = 0 then 0
       else
        (records.countP (fun r =>
          decide (r.course_id = cid ∧ r.course_completed = some true)) : ℚ) /
        (records.countP (fun r => decide (r.course_id = cid)) : ℚ)) := by
  unfold StatsSvc.update_course_stats StatsSvc.completedRuns
  refine ⟨by simp [List.countP_eq_length_filter], ?_⟩
  simp only [List.countP_eq_length_filter]
  rcases Nat.eq_zero_or_pos (records.filter
      (fun r => decide (r.course_id = cid))).length with h | h
  · simp [h]
  · simp [if_pos h, Nat.pos_iff_ne_zero.mp h]

/-- Claim C6: The elevation accumulator ignores deltas smaller than 2 m
(state unchanged, reference altitude kept), moves the reference altitude
exactly when `|delta| ≥ 2`, skips missing and exactly-zero altitudes, and
on the spec's ten-point altitude sequence returns gain 7 m and loss 7 m. -/
theorem c6_elevation_hysteresis :
    (∀ (g l prev a : ℚ), a ≠ 0 → |a - prev| < 2 →
      Elevation.elevStep (g, l, some prev) (some a) = (g, l, some prev)) ∧
    (∀ (g l prev a : ℚ), a ≠ 0 → 2 ≤ |a - prev| →
      (Elevation.elevStep (g, l, some prev) (some a)).2.2 = some a) ∧
    (∀ st : ℚ × ℚ × Option ℚ, Elevation.elevStep st none = st ∧
      Elevation.elevStep st (some 0) = st) ∧
    Elevation.calculate_elevation
      (([100, 100.5, 101, 100.7, 103, 102, 105, 104, 107, 100] : List ℚ).map some)
      = (7, 7) := by
  refine ⟨?_, ?_, ?_, ?_⟩
  · intro g l prev a ha hlt
    simp [Elevation.elevStep, ha, not_le.mpr hlt]
  · intro g l prev a ha hge
    simp only [Elevation.elevStep, if_neg ha]
    rw [if_pos hge]
    split <;> rfl
  · intro st
    cases st with
    | mk g rest => exact ⟨rfl, by simp [Elevation.elevStep]⟩
  · norm_num [Elevation.calculate_elevation, Elevation.elevStep, pyInt,
      List.foldl, abs]

/-- Witness for `c6_elevation_hysteresis`: the 0.5 m jitter step from the
spec's sequence is ignored, and the 3 m climb moves the reference. -/
theorem c6_elevation_hysteresis_witness :
    ((100.5 : ℚ) ≠ 0 ∧ |(100.5 : ℚ) - 100| < 2 ∧
      Elevation.elevStep (0, 0, some 100) (some 100.5) = (0, 0, some 100)) ∧
    ((103 : ℚ) ≠ 0 ∧ 2 ≤ |(103 : ℚ) - 100| ∧
      (Elevation.elevStep (0, 0, some 100) (some 103)).2.2 = some 103) := by
  refine ⟨⟨by norm_num, by rw [abs_of_nonneg] <;> norm_num, ?_⟩,
          ⟨by norm_num, by rw [abs_of_nonneg] <;> norm_num, ?_⟩⟩
  · exact c6_elevation_hysteresis.1 0 0 100 100.5 (by norm_num)
      (by rw [abs_of_nonneg] <;> norm_num)
  · exact c6_elevation_hysteresis.2.1 0 0 100 103 (by norm_num)
      (by rw [abs_of_nonneg] <;> norm_num)

open SpeedAnomaly in
theorem findBracket_fst_eq_strictestLimit (d : ℤ) (hd : 0 ≤ d) :
    (findBracket d).1 = strictestLimit d := by
  unfold findBracket strictestLimit DISTANCE_SPEED_LIMITS MAX_INSTANTANEOUS_SPEED_MS
  by_cases h5 : 42195 ≤ d <;> by_cases h4 : 21097 ≤ d <;>
    by_cases h3 : 10000 ≤ d <;> by_cases h2 : 5000 ≤ d <;>
    by_cases h1 : 1000 ≤ d <;>
    first
      | omega
      | (norm_num [List.find?, List.filter, hd, h1, h2, h3, h4, h5, min_def])

open SpeedAnomaly in
theorem avgSpeed_not_mem_maxSpeedReasons (a l : ℚ) (n : String) (m : Option ℚ) :
    FlagReason.avgSpeed a l n ∉ maxSpeedReasons m := by
  unfold maxSpeedReasons
  cases m with
  | none => simp
  | some v => split <;> simp

open SpeedAnomaly in
theorem avgSpeed_not_mem_bestPaceReasons (a l : ℚ) (n : String) (bp : Option ℤ) :
    FlagReason.avgSpeed a l n ∉ bestPaceReasons bp := by
  unfold bestPaceReasons
  cases bp with
  | none => simp
  | some p => split <;> simp

open SpeedAnomaly in
theorem avgSpeed_not_mem_splitReasons (a l : ℚ) (n : String)
    (splits : Option (List SplitInfo)) :
    FlagReason.avgSpeed a l n ∉ splitReasons splits := by
  unfold splitReasons
  split <;> simp

open SpeedAnomaly in
theorem avgSpeed_mem_runReasons_iff (dm ds : ℤ) (avg maxs : Option ℚ)
    (splits : Option (List SplitInfo)) (bp : Option ℤ) (a l : ℚ) (n : String) :
    FlagReason.avgSpeed a l n ∈ runReasons dm ds avg maxs splits bp ↔
    FlagReason.avgSpeed a l n ∈ avgSpeedReasons dm ds avg := by
  unfold runReasons
  constructor
  · intro h
    rcases List.mem_append.mp h with h | h
    · rcases List.mem_append.mp h with h | h
      · rcases List.mem_append.mp h with h | h
        · exact h
        · exact absurd h (avgSpeed_not_mem_maxSpeedReasons a l n maxs)
      · exact absurd h (avgSpeed_not_mem_bestPaceReasons a l n bp)
    · exact absurd h (avgSpeed_not_mem_splitReasons a l n splits)
  · intro h
    exact List.mem_append.mpr (Or.inl (List.mem_append.mpr (Or.inl
      (List.mem_append.mpr (Or.inl h)))))

open SpeedAnomaly in
/-- Claim C4: For every run with positive distance and duration, the
detector reports an average-speed flag reason exactly when the effective
average speed exceeds the strictest (lowest-limit) bracket whose minimum
distance is at most the run distance; the spec's 10 km / 25 min example is
flagged against the 6.3 m/s limit with a reason carrying the "10km+"
bracket name. -/
theorem c4_avg_speed_bracket_rule
    (d t : ℤ) (avg maxs : Option ℚ) (splits : Option (List SplitInfo))
    (bp : Option ℤ) (hd : 0 < d) (ht : 0 < t) :
    ((∃ rs, (analyze_run d t avg maxs splits bp).flag_reason = some rs ∧
        ∃ a l n, FlagReason.avgSpeed a l n ∈ rs) ↔
      strictestLimit d < effectiveAvgSpeed d t avg) ∧
    analyze_run 10000 1500 none none none none =
      ⟨true, some [FlagReason.avgSpeed (20/3) (63/10) "10km+"], 2/5⟩ := by
  have hguard : ¬(t ≤ 0 ∨ d ≤ 0) := by omega
  have hb := findBracket_fst_eq_strictestLimit d (le_of_lt hd)
  constructor
  · rw [← hb]
    by_cases hc : (findBracket d).1 < effectiveAvgSpeed d t avg
    · have hr1 : avgSpeedReasons d t avg =
          [FlagReason.avgSpeed (effectiveAvgSpeed d t avg) (findBracket d).1
            (findBracket d).2] := by
        unfold avgSpeedReasons
        rw [if_pos hc]
      have hrun : runReasons d t avg maxs splits bp =
          FlagReason.avgSpeed (effectiveAvgSpeed d t avg) (findBracket d).1
            (findBracket d).2 ::
          (maxSpeedReasons maxs ++ bestPaceReasons bp ++ splitReasons splits) := by
        unfold runReasons
        rw [hr1]
        simp
      have hne : runReasons d t avg maxs splits bp ≠ [] := by
        rw [hrun]
        simp
      have hfr : (analyze_run d t avg maxs splits bp).flag_reason =
          some ((runReasons d t avg maxs splits bp).take 3) := by
        unfold analyze_run
        rw [if_neg hguard]
        simp only [if_neg hne]
      constructor
      · intro _
        exact hc
      · intro _
        refine ⟨(runReasons d t avg maxs splits bp).take 3, hfr,
          effectiveAvgSpeed d t avg, (findBracket d).1, (findBracket d).2, ?_⟩
        rw [hrun]
        simp
    · have hr1 : avgSpeedReasons d t avg = [] := by
        unfold avgSpeedReasons
        rw [if_neg hc]
      constructor
      · rintro ⟨rs, hrs, a, l, n, hmem⟩
        exfalso
        by_cases hz : runReasons d t avg maxs splits bp = []
        · have hfr : (analyze_run d t avg maxs splits bp).flag_reason = none := by
            unfold analyze_run
            rw [if_neg hguard]
            simp only [if_pos hz]
          rw [hfr] at hrs
          exact Option.noConfusion hrs
        · have hfr : (analyze_run d t avg maxs splits bp).flag_reason =
              some ((runReasons d t avg maxs splits bp).take 3) := by
            unfold analyze_run
            rw [if_neg hguard]
            simp only [if_neg hz]
          rw [hfr] at hrs
          have hrs' : rs = (runReasons d t avg maxs splits bp).take 3 :=
            (Option.some_inj.mp hrs).symm
          rw [hrs'] at hmem
          have hmem' : FlagReason.avgSpeed a l n ∈
              runReasons d t avg maxs splits bp :=
            List.take_subset _ _ hmem
          have hfin := (avgSpeed_mem_runReasons_iff d t avg maxs splits bp a l n).mp hmem'
          rw [hr1] at hfin
          exact List.not_mem_nil _ hfin
      · intro h
        exact absurd h hc
  · norm_num [analyze_run, runReasons, avgSpeedReasons, maxSpeedReasons,
      bestPaceReasons, splitReasons, effectiveAvgSpeed, findBracket,
      DISTANCE_SPEED_LIMITS, List.find?, min_def]

/-- Witness for `c4_avg_speed_bracket_rule`: the spec's 10 km / 25 min run,
flagged with the `"10km+"` bracket in the reason. -/
theorem c4_avg_speed_bracket_rule_witness :
    (0 : ℤ) < 10000 ∧ (0 : ℤ) < 1500 ∧
    SpeedAnomaly.analyze_run 10000 1500 none none none none =
      ⟨true, some [SpeedAnomaly.FlagReason.avgSpeed (20/3) (63/10) "10km+"],
       2/5⟩ :=
  ⟨by norm_num, by norm_num,
   (c4_avg_speed_bracket_rule 10000 1500 none none none none (by norm_num)
     (by norm_num)).2⟩

open RunSvc in
theorem processBatch_cons {σ π γ : Type} (store : List (Chunk σ π γ))
    (cd : ChunkData σ π γ) (rest : List (ChunkData σ π γ)) :
    processBatch store (cd :: rest) =
      if store.any (fun c => c.sequence = cd.sequence) then
        ((processBatch store rest).1, cd.sequence :: (processBatch store rest).2)
      else
        ((processBatch (store ++ [mkChunk cd]) rest).1,
         cd.sequence :: (processBatch (store ++ [mkChunk cd]) rest).2) := by
  conv_lhs => unfold processBatch

open RunSvc in
theorem processBatch_countP {σ π γ : Type} (q : ℤ)
    (batch : List (ChunkData σ π γ)) (store : List (Chunk σ π γ)) :
    (processBatch store batch).1.countP (fun c => decide (c.sequence = q)) =
      if store.countP (fun c => decide (c.sequence = q)) = 0 ∧
          batch.any (fun b => decide (b.sequence = q)) then 1
      else store.countP (fun c => decide (c.sequence = q)) := by
  induction batch generalizing store with
  | nil =>
    simp [processBatch]
  | cons cd rest ih =>
    rw [processBatch_cons]
    by_cases hdup : store.any (fun c => decide (c.sequence = cd.sequence)) = true
    · rw [if_pos hdup]
      simp only []
      rw [ih store]
      by_cases hq : cd.sequence = q
      · have hpos : store.countP (fun c => decide (c.sequence = q)) ≠ 0 := by
          rcases List.any_eq_true.mp hdup with ⟨c, hc, hcq⟩
          rw [decide_eq_true_eq] at hcq
          have hmem : 0 < store.countP (fun c => decide (c.sequence = q)) :=
            List.countP_pos_iff.mpr ⟨c, hc, by simp [hcq, hq]⟩
          omega
        simp [hpos]
      · simp only [List.any_cons, decide_eq_false hq, Bool.false_or]
    · rw [if_neg hdup]
      simp only []
      rw [ih (store ++ [mkChunk cd])]
      have hall : ∀ c ∈ store, c.sequence ≠ cd.sequence := by
        intro c hc hcq
        exact hdup (List.any_eq_true.mpr ⟨c, hc, by simp [hcq]⟩)
      have hcnt : (store ++ [mkChunk cd]).countP
            (fun c => decide (c.sequence = q)) =
          store.countP (fun c => decide (c.sequence = q)) +
            (if cd.sequence = q then 1 else 0) := by
        rw [List.countP_append]
        congr 1
        by_cases hq : cd.sequence = q <;>
          simp [List.countP_cons, mkChunk, hq]
      rw [hcnt]
      by_cases hq : cd.sequence = q
      · have hz : store.countP (fun c => decide (c.sequence = q)) = 0 := by
          rw [List.countP_eq_zero]
          intro c hc
          simp only [decide_eq_true_eq]
          intro h
          exact hall c hc (h.trans hq.symm)
        rw [hz]
        simp [hq]
      · simp only [if_neg hq, Nat.add_zero, List.any_cons, decide_eq_false hq,
          Bool.false_or]

open RunSvc in
theorem processBatch_received {σ π γ : Type}
    (batch : List (ChunkData σ π γ)) (store : List (Chunk σ π γ))
    (cd : ChunkData σ π γ) (hmem : cd ∈ batch) :
    cd.sequence ∈ (processBatch store batch).2 := by
  induction batch generalizing store with
  | nil => exact absurd hmem (List.not_mem_nil cd)
  | cons hd rest ih =>
    rw [processBatch_cons]
    rcases List.mem_cons.mp hmem with rfl | hmem'
    · split <;> exact List.mem_cons_self _ _
    · split <;> exact List.mem_cons_of_mem _ (ih _ hmem')

open RunSvc in
/-- Claim C7: On an active session, a single-chunk upload whose
`(session_id, sequence)` already exists fails with `DUPLICATE_CHUNK`, while
a batch submission containing the same sequence twice succeeds, reports the
sequence as received, and leaves exactly one stored row with that sequence
(assuming the database uniqueness invariant: at most one pre-existing row). -/
theorem c7_duplicate_chunk_handling {σ π γ : Type} (s : SessionState σ π γ)
    (cd : ChunkData σ π γ) (batch : List (ChunkData σ π γ)) (q : ℤ)
    (hact : s.status = "active")
    (huniq : s.chunks.countP (fun c => decide (c.sequence = q)) ≤ 1)
    (htwice : 2 ≤ batch.countP (fun b => decide (b.sequence = q))) :
    (s.chunks.any (fun c => c.sequence = cd.sequence) →
      upload_chunk s cd = .error .duplicateChunk) ∧
    ∃ s' received, batch_upload_chunks s batch = .ok (s', received, []) ∧
      s'.chunks.countP (fun c => decide (c.sequence = q)) = 1 ∧
      q ∈ received := by
  constructor
  · intro hdup
    unfold upload_chunk
    rw [if_neg (by simp [hact]), if_pos hdup]
  · have hstat : ¬(s.status ≠ "active" ∧ s.status ≠ "completed" ∧
        s.status ≠ "recovered") := by
      simp [hact]
    unfold batch_upload_chunks
    rw [if_neg hstat]
    refine ⟨_, _, rfl, ?_, ?_⟩
    · show (processBatch s.chunks batch).1.countP
        (fun c => decide (c.sequence = q)) = 1
      rw [processBatch_countP]
      have hex : batch.any (fun b => decide (b.sequence = q)) = true := by
        have hpos : 0 < batch.countP (fun b => decide (b.sequence = q)) := by
          omega
        rcases List.countP_pos_iff.mp hpos with ⟨b, hb, hbq⟩
        exact List.any_eq_true.mpr ⟨b, hb, hbq⟩
      by_cases hz : s.chunks.countP (fun c => decide (c.sequence = q)) = 0
      · simp [hz, hex]
      · have h1 : s.chunks.countP (fun c => decide (c.sequence = q)) = 1 := by
          omega
        simp [hz, h1]
    · show q ∈ (processBatch s.chunks batch).2
      have hpos : 0 < batch.countP (fun b => decide (b.sequence = q)) := by
        omega
      rcases List.countP_pos_iff.mp hpos with ⟨b, hb, hbq⟩
      rw [decide_eq_true_eq] at hbq
      rw [← hbq]
      exact processBatch_received batch s.chunks b hb

/-- Witness for `c7_duplicate_chunk_handling`: the example active session
(chunks 2, 0, 1), a colliding single upload of sequence 2, and a batch
carrying sequence 3 twice. -/
theorem c7_duplicate_chunk_handling_witness :
    RunSvc.upload_chunk exSession exDupChunkData =
      .error RunSvc.ApiError.duplicateChunk ∧
    ∃ s' received, RunSvc.batch_upload_chunks exSession exBatch =
      .ok (s', received, []) ∧
      s'.chunks.countP (fun c => decide (c.sequence = (3 : ℤ))) = 1 ∧
      (3 : ℤ) ∈ received := by
  have h := c7_duplicate_chunk_handling exSession exDupChunkData exBatch 3
    rfl (by decide) (by decide)
  exact ⟨h.1 (by decide), h.2⟩

open RunSvc in
theorem sorted_seq_le_getLast {σ π γ : Type} (l : List (Chunk σ π γ)) :
    ∀ (h : l ≠ []), List.Sorted chunkLE l → ∀ x ∈ l, chunkLE x (l.getLast h) := by
  induction l with
  | nil => intro h; exact absurd rfl h
  | cons a rest ih =>
    intro h hs x hx
    rcases List.sorted_cons.mp hs with ⟨hall, hrest⟩
    rcases List.mem_cons.mp hx with rfl | hx'
    · rcases eq_or_ne rest [] with rfl | hne
      · exact Int.le_refl x.sequence
      · rw [List.getLast_cons hne]
        exact hall _ (List.getLast_mem hne)
    · have hne : rest ≠ [] := List.ne_nil_of_mem hx'
      rw [List.getLast_cons hne]
      exact ih hne hrest x hx'

open RunSvc in
/-- Claim C9: `recover_session` rejects with `ALREADY_COMPLETED` exactly
when the session status is `completed`; a session already `recovered` (or
`imported`) with at least one persisted chunk can be recovered again, and
each successful call appends one more `RunRecord` pointing at the same
session. -/
theorem c9_recover_rejects_only_completed {σ π γ : Type}
    (s : SessionState σ π γ) (finished_at : ℤ) (total_chunks : ℕ)
    (uploaded : List ℤ) :
    (recover_session s finished_at total_chunks uploaded =
        .error .alreadyCompleted ↔ s.status = "completed") ∧
    (s.status = "recovered" ∨ s.status = "imported" → s.chunks ≠ [] →
      ∃ s' rec missing,
        recover_session s finished_at total_chunks uploaded =
          .ok (s', rec, missing) ∧
        rec.session_id = s.id ∧
        s'.records = s.records ++ [rec]) := by
  constructor
  · unfold recover_session
    by_cases hc : s.status = "completed"
    · rw [if_pos hc]
      simp [hc]
    · rw [if_neg hc]
      cases hsort : List.insertionSort chunkLE s.chunks with
      | nil => simp [hc]
      | cons c cs => simp [hc]
  · intro hst hne
    have hc : s.status ≠ "completed" := by
      rcases hst with h | h <;> simp [h]
    unfold recover_session
    rw [if_neg hc]
    cases hsort : List.insertionSort chunkLE s.chunks with
    | nil =>
      exfalso
      have hperm := List.perm_insertionSort chunkLE s.chunks
      rw [hsort] at hperm
      exact hne hperm.symm.eq_nil
    | cons c cs =>
      exact ⟨_, _, _, rfl, rfl, rfl⟩

open RunSvc in
/-- Claim C3: For every owned session not in status `completed` with at
least one persisted chunk, `recover_session` succeeds and: takes distance,
duration and average pace from the cumulative snapshot of the chunk with
the highest sequence; concatenates each chunk's filtered-or-raw points in
ascending sequence order into the route polyline (kept only when it has ≥ 2
points, as the source does); concatenates the chunks' split and pause
lists in the same order; sets the session status to `recovered`; and
returns exactly the sequences in `[0, total_chunks)` with no persisted
chunk. -/
theorem c3_recover_session_reconstruction {σ π γ : Type}
    (s : SessionState σ π γ) (finished_at : ℤ) (total_chunks : ℕ)
    (uploaded : List ℤ)
    (hst : s.status ≠ "completed") (hne : s.chunks ≠ []) :
    ∃ s' rec missing,
      recover_session s finished_at total_chunks uploaded =
        .ok (s', rec, missing) ∧
      (∃ lastc ∈ s.chunks,
        (∀ c ∈ s.chunks, c.sequence ≤ lastc.sequence) ∧
        rec.distance_meters = pyInt lastc.cumulative.total_distance_meters ∧
        rec.duration_seconds = pyInt lastc.cumulative.total_duration_seconds ∧
        rec.avg_pace_seconds_per_km = recoverAvgPace lastc.cumulative) ∧
      (∃ sortedChunks : List (Chunk σ π γ), sortedChunks.Perm s.chunks ∧
        List.Sorted chunkLE sortedChunks ∧
        rec.route_geometry =
          (if 2 ≤ (sortedChunks.flatMap chunkPoints).length then
            some (sortedChunks.flatMap chunkPoints) else none) ∧
        rec.splits =
          (if (sortedChunks.flatMap (fun c => c.completed_splits)).isEmpty
           then none
           else some (sortedChunks.flatMap (fun c => c.completed_splits))) ∧
        rec.pause_intervals =
          (if (sortedChunks.flatMap (fun c => c.pause_intervals)).isEmpty
           then none
           else some (sortedChunks.flatMap (fun c => c.pause_intervals)))) ∧
      s'.status = "recovered" ∧
      (∀ q : ℕ, ((q : ℤ) ∈ missing ↔
        (q < total_chunks ∧ ∀ c ∈ s.chunks, c.sequence ≠ (q : ℤ)))) := by
  have hperm := List.perm_insertionSort chunkLE s.chunks
  have hsorted := List.sorted_insertionSort chunkLE s.chunks
  unfold recover_session
  rw [if_neg hst]
  cases hsort : List.insertionSort chunkLE s.chunks with
  | nil =>
    exfalso
    rw [hsort] at hperm
    exact hne hperm.symm.eq_nil
  | cons c cs =>
    rw [hsort] at hperm hsorted
    refine ⟨_, _, _, rfl, ?_, ?_, rfl, ?_⟩
    · refine ⟨(c :: cs).getLast (List.cons_ne_nil c cs),
        hperm.mem_iff.mp (List.getLast_mem _), ?_, rfl, rfl, rfl⟩
      intro ch hch
      exact sorted_seq_le_getLast (c :: cs) (List.cons_ne_nil c cs) hsorted ch
        (hperm.mem_iff.mpr hch)
    · exact ⟨c :: cs, hperm, hsorted, rfl, rfl, rfl⟩
    · intro q
      simp only [List.mem_filter, List.mem_map, List.mem_range,
        Bool.not_eq_true', List.any_eq_false, decide_eq_true_eq]
      constructor
      · rintro ⟨⟨j, hj, hje⟩, hall⟩
        rw [Int.ofNat_eq_coe] at hje
        have hjq : j = q := by exact_mod_cast hje
        subst hjq
        exact ⟨hj, hall⟩
      · rintro ⟨hq, hall⟩
        exact ⟨⟨q, hq, rfl⟩, hall⟩

/-- Witness for `c3_recover_session_reconstruction`: the example active
session with chunks 2, 0, 1 and `total_chunks = 5`. -/
theorem c3_recover_session_reconstruction_witness :
    exSession.status ≠ "completed" ∧ exSession.chunks ≠ [] ∧
    (∃ s' rec missing,
      RunSvc.recover_session exSession 1700003600 5 [0, 1, 2, 3, 4] =
        .ok (s', rec, missing) ∧
      (∃ lastc ∈ exSession.chunks,
        (∀ c ∈ exSession.chunks, c.sequence ≤ lastc.sequence) ∧
        rec.distance_meters = pyInt lastc.cumulative.total_distance_meters ∧
        rec.duration_seconds = pyInt lastc.cumulative.total_duration_seconds ∧
        rec.avg_pace_seconds_per_km = RunSvc.recoverAvgPace lastc.cumulative) ∧
      (∃ sortedChunks : List (RunSvc.Chunk ℕ ℕ ℕ),
        sortedChunks.Perm exSession.chunks ∧
        List.Sorted RunSvc.chunkLE sortedChunks ∧
        rec.route_geometry =
          (if 2 ≤ (sortedChunks.flatMap RunSvc.chunkPoints).length then
            some (sortedChunks.flatMap RunSvc.chunkPoints) else none) ∧
        rec.splits =
          (if (sortedChunks.flatMap (fun c => c.completed_splits)).isEmpty
           then none
           else some (sortedChunks.flatMap (fun c => c.completed_splits))) ∧
        rec.pause_intervals =
          (if (sortedChunks.flatMap (fun c => c.pause_intervals)).isEmpty
           then none
           else some (sortedChunks.flatMap (fun c => c.pause_intervals)))) ∧
      s'.status = "recovered" ∧
      (∀ q : ℕ, ((q : ℤ) ∈ missing ↔
        (q < 5 ∧ ∀ c ∈ exSession.chunks, c.sequence ≠ (q : ℤ))))) :=
  ⟨by decide, by simp [exSession],
   c3_recover_session_reconstruction exSession 1700003600 5 [0, 1, 2, 3, 4]
     (by decide) (by simp [exSession])⟩

/-- Witness for `c9_recover_rejects_only_completed`: a session already in
status `recovered` is recovered again and gains one more record. -/
theorem c9_recover_rejects_only_completed_witness :
    (RunSvc.recover_session exRecoveredSession 1700003600 5 [] =
        .error .alreadyCompleted ↔ exRecoveredSession.status = "completed") ∧
    (∃ s' rec missing,
      RunSvc.recover_session exRecoveredSession 1700003600 5 [] =
        .ok (s', rec, missing) ∧
      rec.session_id = exRecoveredSession.id ∧
      s'.records = exRecoveredSession.records ++ [rec]) := by
  have h := c9_recover_rejects_only_completed exRecoveredSession 1700003600 5 []
  exact ⟨h.1, h.2 (Or.inl rfl) (by simp [exRecoveredSession, exSession])⟩

open Matcher in
theorem scanMin_mem (rest : List (ℕ × ℚ)) (b : ℕ × ℚ) :
    scanMin rest b ∈ b :: rest := by
  induction rest generalizing b with
  | nil => exact List.mem_singleton_self b
  | cons e tl ih =>
    unfold scanMin
    rcases List.mem_cons.mp (ih (if e.2 < b.2 then e else b)) with h | h
    · rw [h]
      split
      · exact List.mem_cons_of_mem _ (List.mem_cons_self _ _)
      · exact List.mem_cons_self _ _
    · exact List.mem_cons_of_mem _ (List.mem_cons_of_mem _ h)

open Matcher in
theorem scanMin_le (rest : List (ℕ × ℚ)) (b : ℕ × ℚ) :
    ∀ p ∈ b :: rest, (scanMin rest b).2 ≤ p.2 := by
  induction rest generalizing b with
  | nil =>
    intro p hp
    rcases List.mem_cons.mp hp with rfl | h
    · exact le_rfl
    · exact absurd h (List.not_mem_nil p)
  | cons e tl ih =>
    intro p hp
    unfold scanMin
    have hbase : (scanMin tl (if e.2 < b.2 then e else b)).2 ≤
        (if e.2 < b.2 then e else b).2 :=
      ih (if e.2 < b.2 then e else b) _ (List.mem_cons_self _ _)
    rcases List.mem_cons.mp hp with rfl | h
    · refine le_trans hbase ?_
      split <;> simp_all <;> linarith
    · rcases List.mem_cons.mp h with rfl | h'
      · refine le_trans hbase ?_
        split <;> simp_all
      · exact ih (if e.2 < b.2 then e else b) p (List.mem_cons_of_mem _ h')

open Matcher in
theorem mem_segPairs {G : Geometry} {p : Point2D} {course : List Point2D}
    {e : ℕ × ℚ} (h : e ∈ segPairs G p course) :
    e.1 < course.length - 1 ∧ e.2 = segDistAt G p course e.1 := by
  unfold segPairs at h
  rcases List.mem_map.mp h with ⟨i, hi, rfl⟩
  exact ⟨List.mem_range.mp hi, rfl⟩

open Matcher in
theorem nearestDist_spec (G : Geometry) (p : Point2D) (course : List Point2D)
    (hcourse : 2 ≤ course.length) :
    (∀ i, i < course.length - 1 →
      nearestDist G p course ≤ segDistAt G p course i) ∧
    (∃ i, i < course.length - 1 ∧
      nearestDist G p course = segDistAt G p course i) := by
  have hlen : 0 < course.length - 1 := by omega
  have hpairs : segPairs G p course =
      (List.range (course.length - 1)).map
        (fun i => (i, segDistAt G p course i)) := rfl
  cases hp : segPairs G p course with
  | nil =>
    exfalso
    have : (0, segDistAt G p course 0) ∈ segPairs G p course := by
      rw [hpairs]
      exact List.mem_map.mpr ⟨0, List.mem_range.mpr hlen, rfl⟩
    rw [hp] at this
    exact List.not_mem_nil _ this
  | cons e rest =>
    have hmin : ∀ x ∈ e :: rest, (scanMin rest e).2 ≤ x.2 := scanMin_le rest e
    have hmem : scanMin rest e ∈ e :: rest := scanMin_mem rest e
    have hmemp : scanMin rest e ∈ segPairs G p course := by
      rw [hp]
      exact hmem
    have hspec := mem_segPairs hmemp
    have hidx : find_nearest_segment G p course = (scanMin rest e).1 := by
      unfold find_nearest_segment
      rw [hp]
    have hnd : nearestDist G p course = (scanMin rest e).2 := by
      unfold nearestDist
      rw [hidx, ← hspec.2]
    constructor
    · intro i hi
      have hin : (i, segDistAt G p course i) ∈ segPairs G p course := by
        rw [hpairs]
        exact List.mem_map.mpr ⟨i, List.mem_range.mpr hi, rfl⟩
      rw [hp] at hin
      rw [hnd]
      exact hmin _ hin
    · exact ⟨(scanMin rest e).1, hspec.1, by rw [hnd, hspec.2]⟩

theorem init_le_foldl_max (l : List ℚ) (a : ℚ) : a ≤ l.foldl max a := by
  induction l generalizing a with
  | nil => exact le_rfl
  | cons y tl ih =>
    simp only [List.foldl_cons]
    exact le_trans (le_max_left a y) (ih (max a y))

theorem foldl_max_le_of_mem {l : List ℚ} {a x : ℚ} (h : x ∈ l) :
    x ≤ l.foldl max a := by
  induction l generalizing a with
  | nil => exact absurd h (List.not_mem_nil x)
  | cons y tl ih =>
    simp only [List.foldl_cons]
    rcases List.mem_cons.mp h with rfl | h'
    · exact le_trans (le_max_right a x) (init_le_foldl_max tl (max a x))
    · exact ih h'

theorem foldl_max_choice (l : List ℚ) (a : ℚ) :
    l.foldl max a = a ∨ ∃ x ∈ l, l.foldl max a = x := by
  induction l generalizing a with
  | nil => exact Or.inl rfl
  | cons y tl ih =>
    simp only [List.foldl_cons]
    rcases ih (max a y) with h | ⟨x, hx, hfx⟩
    · rcases max_choice a y with hm | hm
      · exact Or.inl (h.trans hm)
      · exact Or.inr ⟨y, List.mem_cons_self _ _, h.trans hm⟩
    · exact Or.inr ⟨x, List.mem_cons_of_mem _ hx, hfx⟩

open Matcher in
/-- Claim C5 amended: For every non-empty runner trace, course polyline with
at least 2 vertices, and nonnegative point-to-segment geometry, the route
matcher returns `total_points` = the number of runner points,
`deviation_points` = total − matched, `match_percent` = matched/total × 100
rounded to one decimal, and `is_completed` exactly when matched/total ≥
0.80, where a point is matched when its nearest-segment distance is within
the straight (resp. curved) threshold of its nearest segment; and
`max_deviation` is the maximum over all runner points of the
nearest-segment distance, rounded to one decimal. `nearestDist` is proved
to be the minimum of the point's distances over all course segments. -/
theorem c5_route_match_metrics (G : Geometry)
    (runner course : List Point2D) (st ct : ℚ)
    (hrun : runner ≠ []) (hcourse : 2 ≤ course.length)
    (hnn : ∀ p a b, 0 ≤ G.segDist p a b) :
    (calculate_route_match G runner course st ct).total_points =
      runner.length ∧
    (∀ q ∈ runner,
      (∀ i, i < course.length - 1 →
        nearestDist G q course ≤ segDistAt G q course i) ∧
      (∃ i, i < course.length - 1 ∧
        nearestDist G q course = segDistAt G q course i)) ∧
    (calculate_route_match G runner course st ct).deviation_points =
      runner.length - runner.countP (isMatchedPoint G course
        (classify_segments G course) st ct) ∧
    (calculate_route_match G runner course st ct).route_match_percent =
      round1 (((runner.countP (isMatchedPoint G course
        (classify_segments G course) st ct) : ℚ) /
          (runner.length : ℚ)) * 100) ∧
    ((calculate_route_match G runner course st ct).is_completed = true ↔
      4/5 ≤ (runner.countP (isMatchedPoint G course
        (classify_segments G course) st ct) : ℚ) / (runner.length : ℚ)) ∧
    (∃ pm ∈ runner,
      (calculate_route_match G runner course st ct).max_deviation_meters =
        round1 (nearestDist G pm course) ∧
      ∀ q ∈ runner, nearestDist G q course ≤ nearestDist G pm course) := by
  have hguard : ¬(runner = [] ∨ course.length < 2) := by
    rintro (h | h)
    · exact hrun h
    · omega
  have hres : calculate_route_match G runner course st ct =
      ⟨decide (COMPLETION_MIN_MATCH ≤
          ((runner.countP (isMatchedPoint G course
            (classify_segments G course) st ct) : ℚ) / (runner.length : ℚ))),
       round1 ((((runner.countP (isMatchedPoint G course
            (classify_segments G course) st ct) : ℚ) /
          (runner.length : ℚ))) * 100),
       round1 (runner.foldl
         (fun m p => max m (nearestDist G p course)) 0),
       runner.length - runner.countP (isMatchedPoint G course
         (classify_segments G course) st ct),
       runner.length,
       (classify_segments G course).count true⟩ := by
    unfold calculate_route_match
    rw [if_neg hguard]
  rw [hres]
  refine ⟨rfl, ?_, rfl, rfl, ?_, ?_⟩
  · intro q _
    exact nearestDist_spec G q course hcourse
  · simp only [decide_eq_true_eq]
    unfold COMPLETION_MIN_MATCH
    exact Iff.rfl
  · have hfold : runner.foldl (fun m p => max m (nearestDist G p course)) 0 =
        (runner.map (fun p => nearestDist G p course)).foldl max 0 := by
      rw [List.foldl_map]
    rcases runner with _ | ⟨p0, ptl⟩
    · exact absurd rfl hrun
    · have hnn0 : ∀ q ∈ p0 :: ptl, 0 ≤ nearestDist G q course := by
        intro q _
        unfold nearestDist segDistAt
        exact hnn q _ _
      have hub : ∀ q ∈ p0 :: ptl, nearestDist G q course ≤
          ((p0 :: ptl).map (fun p => nearestDist G p course)).foldl max 0 := by
        intro q hq
        exact foldl_max_le_of_mem (List.mem_map.mpr ⟨q, hq, rfl⟩)
      rcases foldl_max_choice
          ((p0 :: ptl).map (fun p => nearestDist G p course)) 0 with h0 | hex
      · refine ⟨p0, List.mem_cons_self _ _, ?_, ?_⟩
        · rw [hfold, h0]
          have h1 : nearestDist G p0 course ≤ 0 := by
            have := hub p0 (List.mem_cons_self _ _)
            rw [h0] at this
            exact this
          have h2 : 0 ≤ nearestDist G p0 course :=
            hnn0 p0 (List.mem_cons_self _ _)
          rw [le_antisymm h1 h2]
        · intro q hq
          have := hub q hq
          rw [h0] at this
          exact le_trans this (hnn0 p0 (List.mem_cons_self _ _))
      · rcases hex with ⟨x, hx, hfx⟩
        rcases List.mem_map.mp hx with ⟨pm, hpm, rfl⟩
        refine ⟨pm, hpm, ?_, ?_⟩
        · rw [hfold, hfx]
        · intro q hq
          have := hub q hq
          rw [hfx] at this
          exact this

/-- Claim C5 counterexample: on a 3-point runner trace with 2 matched
points, the source returns `route_match_percent = 66.7` (rounded to one
decimal), not the claim's exact `2/3 × 100 = 66.666...`. -/
theorem c5_counterexample_percent_is_rounded :
    exRunner.countP (Matcher.isMatchedPoint exGeom exCourse
      (Matcher.classify_segments exGeom exCourse) 50 60) = 2 ∧
    exRunner.length = 3 ∧
    (Matcher.calculate_route_match exGeom exRunner exCourse).route_match_percent
      = 667/10 ∧
    (Matcher.calculate_route_match exGeom exRunner exCourse).route_match_percent
      ≠ ((2 : ℚ) / 3) * 100 := by
  have heq : (Matcher.calculate_route_match exGeom exRunner
      exCourse).route_match_percent = 667/10 := by
    norm_num [Matcher.calculate_route_match, Matcher.isMatchedPoint,
      Matcher.nearestDist, Matcher.find_nearest_segment, Matcher.segPairs,
      Matcher.segDistAt, Matcher.scanMin, Matcher.classify_segments,
      Matcher.pointThreshold, exGeom, exRunner, exCourse, round1,
      roundHalfEven, List.countP, List.countP.go, List.foldl, Matcher.origin,
      Matcher.COMPLETION_MIN_MATCH, Matcher.STRAIGHT_THRESHOLD,
      Matcher.CURVE_THRESHOLD]
    simp
  refine ⟨by decide, rfl, heq, ?_⟩
  rw [heq]
  norm_num

/-- Witness for `c5_route_match_metrics`: the one-segment example course
with two on-course runner points and one 100 m off. -/
theorem c5_route_match_metrics_witness :
    exRunner ≠ [] ∧ 2 ≤ exCourse.length ∧
    ((Matcher.calculate_route_match exGeom exRunner exCourse 50 60).total_points =
      exRunner.length ∧
    (∀ q ∈ exRunner,
      (∀ i, i < exCourse.length - 1 →
        Matcher.nearestDist exGeom q exCourse ≤
          Matcher.segDistAt exGeom q exCourse i) ∧
      (∃ i, i < exCourse.length - 1 ∧
        Matcher.nearestDist exGeom q exCourse =
          Matcher.segDistAt exGeom q exCourse i)) ∧
    (Matcher.calculate_route_match exGeom exRunner exCourse 50 60).deviation_points =
      exRunner.length - exRunner.countP (Matcher.isMatchedPoint exGeom exCourse
        (Matcher.classify_segments exGeom exCourse) 50 60) ∧
    (Matcher.calculate_route_match exGeom exRunner exCourse 50 60).route_match_percent =
      round1 (((exRunner.countP (Matcher.isMatchedPoint exGeom exCourse
        (Matcher.classify_segments exGeom exCourse) 50 60) : ℚ) /
          (exRunner.length : ℚ)) * 100) ∧
    ((Matcher.calculate_route_match exGeom exRunner exCourse 50 60).is_completed = true ↔
      4/5 ≤ (exRunner.countP (Matcher.isMatchedPoint exGeom exCourse
        (Matcher.classify_segments exGeom exCourse) 50 60) : ℚ) /
        (exRunner.length : ℚ)) ∧
    (∃ pm ∈ exRunner,
      (Matcher.calculate_route_match exGeom exRunner exCourse 50 60).max_deviation_meters =
        round1 (Matcher.nearestDist exGeom pm exCourse) ∧
      ∀ q ∈ exRunner, Matcher.nearestDist exGeom q exCourse ≤
        Matcher.nearestDist exGeom pm exCourse)) :=
  ⟨by simp [exRunner], by norm_num [exCourse],
   c5_route_match_metrics exGeom exRunner exCourse 50 60 (by simp [exRunner])
     (by norm_num [exCourse])
     (by intro p a b; simp only [exGeom]; split <;> norm_num)⟩
